import Mathlib

/-!
Shallow embedding of the region-metrics aggregation endpoint
(`calculate_metrics` in `src/api/index.py`) of the eshopco-telemetry
service.  Latencies and uptimes are modelled as exact rationals; the
numpy operations used by the code (`np.mean`, `np.percentile` with the
default linear interpolation, elementwise `>` plus `np.sum`) are
translated directly.  The response dictionary `results` is modelled as
an insertion-ordered association list with Python dict assignment
semantics: `results[region] = v` overwrites in place when the key is
present and appends otherwise.
-/

/-- One telemetry observation, as in the `telemetry_data` literals. -/
structure TelemetryRecord where
  region : String
  latency_ms : ℚ
  uptime : ℚ
deriving DecidableEq, Repr

/-- The four-field per-region output record built at lines 99-104 of
`src/api/index.py` (the pydantic model `RegionMetrics`). -/
structure RegionMetrics where
  avg_latency : ℚ
  p95_latency : ℚ
  avg_uptime : ℚ
  breaches : ℕ
deriving DecidableEq, Repr

/-- The all-zero record returned for a region with no data (lines 82-87). -/
def zeroMetrics : RegionMetrics :=
  { avg_latency := 0, p95_latency := 0, avg_uptime := 0, breaches := 0 }

/-- Python `round(x, digits)` on an exact rational. -/
def roundTo (digits : ℕ) (x : ℚ) : ℚ :=
  (round (x * 10 ^ digits) : ℤ) / 10 ^ digits

/-- `np.mean` on a list of rationals. -/
def npMean (xs : List ℚ) : ℚ :=
  xs.sum / xs.length

/-- `np.percentile(xs, 95)` with numpy's default linear interpolation:
for `n` sorted values the position is `0.95 * (n - 1)`; the result
interpolates between the values at the floor index and the next index. -/
def npPercentile95 (xs : List ℚ) : ℚ :=
  let s := xs.insertionSort (· ≤ ·)
  let n := s.length
  let pos : ℚ := 95 / 100 * ((n : ℚ) - 1)
  let i : ℕ := ⌊pos⌋.toNat
  let lo := s.getD i 0
  let hi := s.getD (min (i + 1) (n - 1)) 0
  lo + (pos - (i : ℚ)) * (hi - lo)

/-- The statically embedded dataset `telemetry_data` (lines 33-70). -/
def telemetry_data : List TelemetryRecord := [
  ⟨"apac", 132.85, 0.98216⟩,
  ⟨"apac", 158.65, 0.98449⟩,
  ⟨"apac", 210.02, 0.97439⟩,
  ⟨"apac", 175.03, 0.9888⟩,
  ⟨"apac", 156.38, 0.97809⟩,
  ⟨"apac", 169.18, 0.98332⟩,
  ⟨"apac", 167.93, 0.98236⟩,
  ⟨"apac", 113.83, 0.98592⟩,
  ⟨"apac", 177.43, 0.99437⟩,
  ⟨"apac", 203.85, 0.99137⟩,
  ⟨"apac", 219.17, 0.98774⟩,
  ⟨"apac", 184.01, 0.99043⟩,
  ⟨"emea", 215.32, 0.97201⟩,
  ⟨"emea", 165.35, 0.98221⟩,
  ⟨"emea", 113.86, 0.98619⟩,
  ⟨"emea", 152.11, 0.98282⟩,
  ⟨"emea", 189.73, 0.9713⟩,
  ⟨"emea", 122.49, 0.97366⟩,
  ⟨"emea", 180.42, 0.97796⟩,
  ⟨"emea", 149.34, 0.98406⟩,
  ⟨"emea", 190.12, 0.98774⟩,
  ⟨"emea", 209.3, 0.98798⟩,
  ⟨"emea", 199.34, 0.98362⟩,
  ⟨"emea", 132.64, 0.9851⟩,
  ⟨"amer", 130.38, 0.97866⟩,
  ⟨"amer", 155.75, 0.97379⟩,
  ⟨"amer", 207.35, 0.98876⟩,
  ⟨"amer", 116.86, 0.97658⟩,
  ⟨"amer", 146.43, 0.98099⟩,
  ⟨"amer", 206.86, 0.9869⟩,
  ⟨"amer", 174.05, 0.99031⟩,
  ⟨"amer", 139.62, 0.97104⟩,
  ⟨"amer", 135.89, 0.98546⟩,
  ⟨"amer", 168.0, 0.98838⟩,
  ⟨"amer", 112.87, 0.99292⟩,
  ⟨"amer", 152.29, 0.98653⟩]

/-- Python dict assignment `results[region] = v`: overwrite the entry in
place when the key is already present, append otherwise. -/
def dictInsert (m : List (String × RegionMetrics)) (k : String) (v : RegionMetrics) :
    List (String × RegionMetrics) :=
  if m.any (fun p => p.1 == k) then
    m.map (fun p => if p.1 == k then (k, v) else p)
  else
    m ++ [(k, v)]

/-- Python dict read `results[k]` (as an option). -/
def dictLookup (m : List (String × RegionMetrics)) (k : String) : Option RegionMetrics :=
  (m.find? (fun p => p.1 == k)).map Prod.snd

/-- The keys of the response dictionary, in insertion order. -/
def keysOf (m : List (String × RegionMetrics)) : List String :=
  m.map Prod.fst

/-- Lines 90-104: the four statistics computed for a non-empty
sub-collection `region_data` of records matching the requested region. -/
def regionMetricsOf (region_data : List TelemetryRecord) (threshold_ms : Int) : RegionMetrics :=
  let latencies := region_data.map (fun item => item.latency_ms)
  let uptimes := region_data.map (fun item => item.uptime)
  let avg_latency := npMean latencies
  let p95_latency := npPercentile95 latencies
  let avg_uptime := npMean uptimes
  let breaches := latencies.countP (fun l => decide (l > (threshold_ms : ℚ)))
  { avg_latency := roundTo 2 avg_latency
    p95_latency := roundTo 2 p95_latency
    avg_uptime := roundTo 4 avg_uptime
    breaches := breaches }

/-- The body of the `for region in request.regions` loop (lines 76-104):
filter the dataset on exact region equality, store the zero record when
the sub-collection is empty, otherwise store the computed statistics. -/
def regionStep (data : List TelemetryRecord) (threshold_ms : Int)
    (results : List (String × RegionMetrics)) (region : String) :
    List (String × RegionMetrics) :=
  let region_data := data.filter (fun item => item.region == region)
  if region_data.isEmpty then
    dictInsert results region zeroMetrics
  else
    dictInsert results region (regionMetricsOf region_data threshold_ms)

/-- `calculate_metrics` (lines 73-106), parameterized by the module-level
dataset: fold the loop body over the requested regions, starting from the
empty dict `results = {}`. -/
def calculate_metrics (data : List TelemetryRecord) (regions : List String)
    (threshold_ms : Int) : List (String × RegionMetrics) :=
  regions.foldl (regionStep data threshold_ms) []

/-- The value `calculate_metrics` stores for one requested region. -/
def regionResult (data : List TelemetryRecord) (region : String)
    (threshold_ms : Int) : RegionMetrics :=
  let region_data := data.filter (fun item => item.region == region)
  if region_data.isEmpty then zeroMetrics
  else regionMetricsOf region_data threshold_ms

theorem regionStep_eq (data : List TelemetryRecord) (t : Int)
    (results : List (String × RegionMetrics)) (r : String) :
    regionStep data t results r = dictInsert results r (regionResult data r t) := by
  unfold regionStep regionResult
  by_cases h : (data.filter (fun item => item.region == r)).isEmpty <;> simp [h]

/-! ### Dictionary lemmas -/

theorem keysOf_replace (m : List (String × RegionMetrics)) (k : String) (v : RegionMetrics) :
    keysOf (m.map (fun p => if p.1 == k then (k, v) else p)) = keysOf m := by
  unfold keysOf
  rw [List.map_map]
  refine List.map_congr_left ?_
  intro p _
  by_cases hp : p.1 = k
  · simp [hp]
  · simp [hp]

theorem find?_replace_self (m : List (String × RegionMetrics)) (k : String)
    (v : RegionMetrics) :
    List.find? (fun q => q.1 == k) (m.map (fun p => if p.1 == k then (k, v) else p)) =
      if m.any (fun p => p.1 == k) then some (k, v) else none := by
  induction m with
  | nil => rfl
  | cons p m ih =>
    rw [List.map_cons]
    by_cases hp : p.1 = k
    · have hfp : (if (p.1 == k) = true then (k, v) else p) = (k, v) := by simp [hp]
      rw [hfp, List.find?_cons_of_pos _ (by simp)]
      have hany : ((p :: m).any fun q => q.1 == k) = true := by simp [hp]
      rw [if_pos hany]
    · have hfp : (if (p.1 == k) = true then (k, v) else p) = p := by
        simp [beq_false_of_ne hp]
      rw [hfp, List.find?_cons_of_neg _ (by simp [hp]), ih]
      simp only [List.any_cons, beq_false_of_ne hp, Bool.false_or]

theorem find?_replace_other (m : List (String × RegionMetrics)) (k k' : String)
    (v : RegionMetrics) (hne : k' ≠ k) :
    List.find? (fun q => q.1 == k') (m.map (fun p => if p.1 == k then (k, v) else p)) =
      List.find? (fun q => q.1 == k') m := by
  induction m with
  | nil => rfl
  | cons p m ih =>
    rw [List.map_cons]
    by_cases hp : p.1 = k
    · have hfp : (if (p.1 == k) = true then (k, v) else p) = (k, v) := by simp [hp]
      rw [hfp, List.find?_cons_of_neg _ (by simp [Ne.symm hne]),
        List.find?_cons_of_neg _ (by simp [hp, Ne.symm hne]), ih]
    · have hfp : (if (p.1 == k) = true then (k, v) else p) = p := by
        simp [beq_false_of_ne hp]
      rw [hfp]
      by_cases hp' : p.1 = k'
      · rw [List.find?_cons_of_pos _ (by simp [hp']), List.find?_cons_of_pos _ (by simp [hp'])]
      · rw [List.find?_cons_of_neg _ (by simp [hp']), List.find?_cons_of_neg _ (by simp [hp']),
          ih]

theorem dictLookup_dictInsert_self (m : List (String × RegionMetrics)) (k : String)
    (v : RegionMetrics) :
    dictLookup (dictInsert m k v) k = some v := by
  unfold dictLookup dictInsert
  by_cases h : m.any (fun p => p.1 == k)
  · rw [if_pos h, find?_replace_self, if_pos h]
    rfl
  · rw [if_neg h, List.find?_append]
    have hnone : m.find? (fun p => p.1 == k) = none := by
      rw [List.find?_eq_none]
      intro x hx hpx
      exact h (List.any_eq_true.mpr ⟨x, hx, hpx⟩)
    rw [hnone, Option.none_or, List.find?_cons_of_pos _ (by simp)]
    rfl

theorem dictLookup_dictInsert_other (m : List (String × RegionMetrics)) (k k' : String)
    (v : RegionMetrics) (hne : k' ≠ k) :
    dictLookup (dictInsert m k v) k' = dictLookup m k' := by
  unfold dictLookup dictInsert
  by_cases h : m.any (fun p => p.1 == k)
  · rw [if_pos h, find?_replace_other m k k' v hne]
  · rw [if_neg h, List.find?_append, List.find?_cons_of_neg _ (by simp [Ne.symm hne]),
      List.find?_nil, Option.or_none]

theorem mem_keysOf_dictInsert (m : List (String × RegionMetrics)) (k k' : String)
    (v : RegionMetrics) :
    k' ∈ keysOf (dictInsert m k v) ↔ k' = k ∨ k' ∈ keysOf m := by
  unfold dictInsert
  by_cases h : m.any (fun p => p.1 == k)
  · rw [if_pos h, keysOf_replace]
    have hk : k ∈ keysOf m := by
      rcases List.any_eq_true.mp h with ⟨p, hp, hbe⟩
      exact List.mem_map.mpr ⟨p, hp, beq_iff_eq.mp hbe⟩
    constructor
    · exact Or.inr
    · rintro (rfl | hmem)
      · exact hk
      · exact hmem
  · rw [if_neg h]
    unfold keysOf
    rw [List.map_append]
    simp [or_comm]

theorem nodup_keysOf_dictInsert (m : List (String × RegionMetrics)) (k : String)
    (v : RegionMetrics) (hnd : (keysOf m).Nodup) :
    (keysOf (dictInsert m k v)).Nodup := by
  unfold dictInsert
  by_cases h : m.any (fun p => p.1 == k)
  · rw [if_pos h, keysOf_replace]
    exact hnd
  · rw [if_neg h]
    have hk : k ∉ keysOf m := by
      intro hmem
      rcases List.mem_map.mp hmem with ⟨p, hp, hpk⟩
      exact h (List.any_eq_true.mpr ⟨p, hp, beq_iff_eq.mpr hpk⟩)
    unfold keysOf at hk ⊢
    rw [List.map_append]
    refine hnd.append (List.nodup_singleton k) ?_
    intro a ha hb
    rw [List.map_singleton, List.mem_singleton] at hb
    subst hb
    exact hk ha

/-! ### Characterization of the response dictionary built by the loop -/

theorem dictLookup_foldl (data : List TelemetryRecord) (t : Int) :
    ∀ (rs : List String) (m : List (String × RegionMetrics)) (k : String),
      dictLookup (rs.foldl (regionStep data t) m) k =
        if k ∈ rs then some (regionResult data k t) else dictLookup m k := by
  intro rs
  induction rs with
  | nil =>
    intro m k
    simp
  | cons r rs ih =>
    intro m k
    rw [List.foldl_cons, ih]
    by_cases hk : k ∈ rs
    · rw [if_pos hk, if_pos (List.mem_cons_of_mem r hk)]
    · rw [if_neg hk]
      by_cases hkr : k = r
      · subst hkr
        rw [regionStep_eq, dictLookup_dictInsert_self, if_pos (List.mem_cons_self k rs)]
      · rw [regionStep_eq, dictLookup_dictInsert_other _ _ _ _ hkr,
          if_neg (by simp [List.mem_cons, hkr, hk])]

theorem dictLookup_calculate_metrics (data : List TelemetryRecord) (rs : List String)
    (t : Int) (k : String) :
    dictLookup (calculate_metrics data rs t) k =
      if k ∈ rs then some (regionResult data k t) else none := by
  unfold calculate_metrics
  rw [dictLookup_foldl]
  rfl

theorem mem_keysOf_foldl (data : List TelemetryRecord) (t : Int) :
    ∀ (rs : List String) (m : List (String × RegionMetrics)) (k : String),
      k ∈ keysOf (rs.foldl (regionStep data t) m) ↔ k ∈ rs ∨ k ∈ keysOf m := by
  intro rs
  induction rs with
  | nil =>
    intro m k
    simp
  | cons r rs ih =>
    intro m k
    rw [List.foldl_cons, ih, regionStep_eq, mem_keysOf_dictInsert]
    constructor
    · rintro (h | h | h)
      · exact Or.inl (List.mem_cons_of_mem r h)
      · exact Or.inl (h ▸ List.mem_cons_self r rs)
      · exact Or.inr h
    · rintro (h | h)
      · rcases List.mem_cons.mp h with h | h
        · exact Or.inr (Or.inl h)
        · exact Or.inl h
      · exact Or.inr (Or.inr h)

theorem mem_keysOf_calculate_metrics (data : List TelemetryRecord) (rs : List String)
    (t : Int) (k : String) :
    k ∈ keysOf (calculate_metrics data rs t) ↔ k ∈ rs := by
  unfold calculate_metrics
  rw [mem_keysOf_foldl]
  simp [keysOf]

theorem nodup_keysOf_foldl (data : List TelemetryRecord) (t : Int) :
    ∀ (rs : List String) (m : List (String × RegionMetrics)),
      (keysOf m).Nodup → (keysOf (rs.foldl (regionStep data t) m)).Nodup := by
  intro rs
  induction rs with
  | nil =>
    intro m h
    exact h
  | cons r rs ih =>
    intro m h
    rw [List.foldl_cons, regionStep_eq]
    exact ih _ (nodup_keysOf_dictInsert _ _ _ h)

theorem nodup_keysOf_calculate_metrics (data : List TelemetryRecord) (rs : List String)
    (t : Int) :
    (keysOf (calculate_metrics data rs t)).Nodup := by
  unfold calculate_metrics
  exact nodup_keysOf_foldl data t rs [] (by simp [keysOf])

/-! ### Statistics lemmas -/

theorem npMean_singleton (x : ℚ) : npMean [x] = x := by
  simp [npMean]

theorem npPercentile95_singleton (x : ℚ) : npPercentile95 [x] = x := by
  norm_num [npPercentile95, List.insertionSort, List.orderedInsert]

theorem insertionSort_eq_of_perm {l l' : List ℚ} (h : l.Perm l') :
    l.insertionSort (· ≤ ·) = l'.insertionSort (· ≤ ·) :=
  List.eq_of_perm_of_sorted
    ((List.perm_insertionSort _ l).trans (h.trans (List.perm_insertionSort _ l').symm))
    (List.sorted_insertionSort _ l) (List.sorted_insertionSort _ l')

theorem npPercentile95_perm {l l' : List ℚ} (h : l.Perm l') :
    npPercentile95 l = npPercentile95 l' := by
  unfold npPercentile95
  rw [insertionSort_eq_of_perm h]

theorem npMean_perm {l l' : List ℚ} (h : l.Perm l') : npMean l = npMean l' := by
  unfold npMean
  rw [h.sum_eq, h.length_eq]

theorem regionMetricsOf_perm {d d' : List TelemetryRecord} (h : d.Perm d') (t : Int) :
    regionMetricsOf d t = regionMetricsOf d' t := by
  unfold regionMetricsOf
  dsimp only
  rw [npMean_perm (h.map _), npPercentile95_perm (h.map _),
    npMean_perm (h.map (fun item => item.uptime)), (h.map _).countP_eq]

theorem regionResult_perm {d d' : List TelemetryRecord} (h : d.Perm d') (r : String)
    (t : Int) :
    regionResult d r t = regionResult d' r t := by
  unfold regionResult
  have hf : (d.filter (fun item => item.region == r)).Perm
      (d'.filter (fun item => item.region == r)) := h.filter _
  by_cases he : d.filter (fun item => item.region == r) = []
  · have he' : d'.filter (fun item => item.region == r) = [] :=
      List.length_eq_zero.mp (hf.length_eq ▸ he ▸ rfl)
    rw [he, he']
  · have he' : d'.filter (fun item => item.region == r) ≠ [] := by
      intro hnil
      exact he (List.length_eq_zero.mp (hf.length_eq.trans (hnil ▸ rfl)))
    rw [if_neg (by simpa [List.isEmpty_iff] using he),
      if_neg (by simpa [List.isEmpty_iff] using he'), regionMetricsOf_perm hf t]

theorem calculate_metrics_perm {d d' : List TelemetryRecord} (h : d.Perm d')
    (rs : List String) (t : Int) :
    calculate_metrics d rs t = calculate_metrics d' rs t := by
  unfold calculate_metrics
  have hstep : regionStep d t = regionStep d' t := by
    funext m r
    rw [regionStep_eq, regionStep_eq, regionResult_perm h r t]
  rw [hstep]

theorem breaches_regionResult (data : List TelemetryRecord) (r : String) (t : Int) :
    (regionResult data r t).breaches =
      (data.filter (fun item => item.region == r)).countP
        (fun item => decide (item.latency_ms > (t : ℚ))) := by
  unfold regionResult
  by_cases he : (data.filter (fun item => item.region == r)).isEmpty
  · rw [if_pos he]
    rw [List.isEmpty_iff] at he
    rw [he]
    rfl
  · rw [if_neg he]
    unfold regionMetricsOf
    dsimp only
    rw [List.countP_map]
    rfl

theorem breaches_regionResult_le (data : List TelemetryRecord) (r : String) (t : Int) :
    (regionResult data r t).breaches ≤
      (data.filter (fun item => item.region == r)).length := by
  rw [breaches_regionResult]
  exact List.countP_le_length _

/-! ### Claim theorems -/

/-- C1 counterexample: region matching in `calculate_metrics` is NOT
case-insensitive.  On a dataset whose single record is stored with region
"amer", requesting "AMER" selects no record (the sub-collection is empty)
and yields the zero sentinel, while requesting "amer" yields the actual
statistics of that record; the two Region Metrics differ. -/
theorem C1_counterexample :
    ([(⟨"amer", 100, 0.99⟩ : TelemetryRecord)].filter
        (fun item => item.region == "AMER")) = [] ∧
    dictLookup (calculate_metrics [⟨"amer", 100, 0.99⟩] ["AMER"] 150) "AMER" =
      some zeroMetrics ∧
    dictLookup (calculate_metrics [⟨"amer", 100, 0.99⟩] ["amer"] 150) "amer" =
      some { avg_latency := 100, p95_latency := 100, avg_uptime := 0.99, breaches := 0 } ∧
    zeroMetrics ≠
      ({ avg_latency := 100, p95_latency := 100, avg_uptime := 0.99, breaches := 0 } :
        RegionMetrics) := by
  refine ⟨rfl, rfl, ?_, ?_⟩
  · norm_num [calculate_metrics, regionStep, regionMetricsOf, dictInsert, dictLookup,
      npMean, npPercentile95, roundTo, round_eq, List.insertionSort, List.orderedInsert]
  · intro h
    have := congrArg RegionMetrics.avg_latency h
    norm_num [zeroMetrics] at this

/-- C1 (amended): region matching in `calculate_metrics` is case-sensitive
exact string equality: for every dataset, threshold, and requested region
`r`, the sub-collection selected for `r` contains exactly the dataset
records whose `region` field equals `r` exactly (a stored region differing
only in letter case is not selected), and the response entry for `r` is
the zero sentinel when that sub-collection is empty and its computed
statistics otherwise. -/
theorem C1_region_match_exact (data : List TelemetryRecord) (r : String) (t : Int)
    (rec : TelemetryRecord) :
    (rec ∈ data.filter (fun item => item.region == r) ↔ rec ∈ data ∧ rec.region = r) ∧
    dictLookup (calculate_metrics data [r] t) r =
      some (if (data.filter (fun item => item.region == r)).isEmpty then zeroMetrics
        else regionMetricsOf (data.filter (fun item => item.region == r)) t) := by
  constructor
  · simp [List.mem_filter]
  · rw [dictLookup_calculate_metrics, if_pos (List.mem_cons_self r [])]
    rfl

/-- C2: on the dataset `[{amer,100,0.99}, {amer,200,0.95}]` with request
`regions=["amer"]`, `threshold_ms=150`, the response maps "amer" to
`avg_latency = 150.0`, `p95_latency = 195.0` (linear interpolation at
position `0.95 * (n-1)`), `avg_uptime = 0.97`, `breaches = 1`. -/
theorem C2_concrete_scenario :
    calculate_metrics [⟨"amer", 100, 0.99⟩, ⟨"amer", 200, 0.95⟩] ["amer"] 150 =
      [("amer",
        { avg_latency := 150, p95_latency := 195, avg_uptime := 0.97, breaches := 1 })] := by
  norm_num [calculate_metrics, regionStep, regionMetricsOf, dictInsert, npMean,
    npPercentile95, roundTo, round_eq, List.insertionSort, List.orderedInsert]

/-- C3: the breach count is strict greater-than: for every dataset,
requested region and integer threshold `t`, the `breaches` field of the
response entry equals the number of matching records whose `latency_ms`
strictly exceeds `t`; in particular a single matching record with latency
exactly `t` contributes `breaches = 0`, while one with latency `t + 1`
contributes `breaches = 1`. -/
theorem C3_breaches_strict_gt (data : List TelemetryRecord) (r : String) (t : Int)
    (u : ℚ) :
    (dictLookup (calculate_metrics data [r] t) r).map RegionMetrics.breaches =
      some ((data.filter (fun item => item.region == r)).countP
        (fun item => decide (item.latency_ms > (t : ℚ)))) ∧
    (dictLookup (calculate_metrics [⟨r, (t : ℚ), u⟩] [r] t) r).map
        RegionMetrics.breaches = some 0 ∧
    (dictLookup (calculate_metrics [⟨r, (t : ℚ) + 1, u⟩] [r] t) r).map
        RegionMetrics.breaches = some 1 := by
  have key : ∀ (d : List TelemetryRecord),
      (dictLookup (calculate_metrics d [r] t) r).map RegionMetrics.breaches =
        some ((d.filter (fun item => item.region == r)).countP
          (fun item => decide (item.latency_ms > (t : ℚ)))) := by
    intro d
    rw [dictLookup_calculate_metrics, if_pos (List.mem_cons_self r [])]
    exact congrArg some (breaches_regionResult d r t)
  refine ⟨key data, ?_, ?_⟩
  · rw [key]
    simp [List.countP_cons]
  · rw [key]
    simp [List.countP_cons]

/-- C4: for every dataset, threshold, and requested region with no
matching record (including the empty dataset), the response entry for
that region is the zero sentinel `avg_latency = 0`, `p95_latency = 0`,
`avg_uptime = 0`, `breaches = 0`, and the unknown region produces an
entry rather than an error. -/
theorem C4_unknown_region_zero_sentinel (data : List TelemetryRecord) (t : Int)
    (r : String) (h : ∀ rec ∈ data, rec.region ≠ r) :
    dictLookup (calculate_metrics data [r] t) r = some zeroMetrics := by
  have hfilter : data.filter (fun item => item.region == r) = [] := by
    rw [List.filter_eq_nil_iff]
    intro rec hrec
    simpa using h rec hrec
  rw [dictLookup_calculate_metrics, if_pos (List.mem_cons_self r [])]
  unfold regionResult
  rw [hfilter]
  rfl

/-- Witness for C4: no record of the embedded dataset has region
"unknown", and the response entry for "unknown" is the zero sentinel. -/
theorem C4_witness :
    (∀ rec ∈ telemetry_data, rec.region ≠ "unknown") ∧
    dictLookup (calculate_metrics telemetry_data ["unknown"] 150) "unknown" =
      some zeroMetrics :=
  ⟨by decide, C4_unknown_region_zero_sentinel telemetry_data 150 "unknown" (by decide)⟩

/-- C5: when the matching sub-collection for a requested region is a
single record with latency `L` and uptime `U`, the response entry has
`avg_latency = round(L, 2)`, `p95_latency = round(L, 2)` (the percentile
of a single value is that value), and `avg_uptime = round(U, 4)`. -/
theorem C5_singleton_subcollection (data : List TelemetryRecord) (r : String) (t : Int)
    (rec : TelemetryRecord)
    (h : data.filter (fun item => item.region == r) = [rec]) :
    dictLookup (calculate_metrics data [r] t) r =
      some { avg_latency := roundTo 2 rec.latency_ms
             p95_latency := roundTo 2 rec.latency_ms
             avg_uptime := roundTo 4 rec.uptime
             breaches := if rec.latency_ms > (t : ℚ) then 1 else 0 } := by
  rw [dictLookup_calculate_metrics, if_pos (List.mem_cons_self r [])]
  unfold regionResult
  rw [h]
  unfold regionMetricsOf
  simp [npMean_singleton, npPercentile95_singleton, List.countP_cons]

/-- Witness for C5: a dataset whose only record matches "amer", at
latency 100 and uptime 0.99. -/
theorem C5_witness :
    ([(⟨"amer", 100, 0.99⟩ : TelemetryRecord)].filter
        (fun item => item.region == "amer") = [⟨"amer", 100, 0.99⟩]) ∧
    dictLookup (calculate_metrics [⟨"amer", 100, 0.99⟩] ["amer"] 150) "amer" =
      some { avg_latency := roundTo 2 (100 : ℚ)
             p95_latency := roundTo 2 (100 : ℚ)
             avg_uptime := roundTo 4 (0.99 : ℚ)
             breaches := if (100 : ℚ) > ((150 : Int) : ℚ) then 1 else 0 } :=
  ⟨rfl, C5_singleton_subcollection [⟨"amer", 100, 0.99⟩] "amer" 150 ⟨"amer", 100, 0.99⟩ rfl⟩

/-- C6: `calculate_metrics` is invariant under permutation of the
dataset: permuting the record order changes no Region Metrics value (the
whole response mapping is unchanged), for every regions list and
threshold. -/
theorem C6_order_independence {d d' : List TelemetryRecord} (h : d.Perm d')
    (rs : List String) (t : Int) :
    calculate_metrics d rs t = calculate_metrics d' rs t :=
  calculate_metrics_perm h rs t

/-- Witness for C6: swapping the two records of a two-record dataset
leaves the response unchanged. -/
theorem C6_witness :
    ([(⟨"amer", 100, 0.99⟩ : TelemetryRecord), ⟨"emea", 200, 0.95⟩].Perm
      [⟨"emea", 200, 0.95⟩, ⟨"amer", 100, 0.99⟩]) ∧
    calculate_metrics [⟨"amer", 100, 0.99⟩, ⟨"emea", 200, 0.95⟩] ["amer", "emea"] 150 =
      calculate_metrics [⟨"emea", 200, 0.95⟩, ⟨"amer", 100, 0.99⟩] ["amer", "emea"] 150 :=
  ⟨List.Perm.swap (⟨"emea", 200, 0.95⟩ : TelemetryRecord) (⟨"amer", 100, 0.99⟩ : TelemetryRecord) [],
    C6_order_independence
      (List.Perm.swap (⟨"emea", 200, 0.95⟩ : TelemetryRecord) (⟨"amer", 100, 0.99⟩ : TelemetryRecord) [])
      ["amer", "emea"] 150⟩

/-- C7: `calculate_metrics` is deterministic: two invocations with equal
dataset, regions list, and threshold produce equal responses; no hidden
randomness or time dependence influences any field. -/
theorem C7_deterministic (d d' : List TelemetryRecord) (rs rs' : List String)
    (t t' : Int) (hd : d = d') (hrs : rs = rs') (ht : t = t') :
    calculate_metrics d rs t = calculate_metrics d' rs' t' := by
  rw [hd, hrs, ht]

/-- Witness for C7: two invocations on the embedded dataset with regions
["amer"] and threshold 180 agree. -/
theorem C7_witness :
    telemetry_data = telemetry_data ∧ (["amer"] : List String) = ["amer"] ∧
    (180 : Int) = 180 ∧
    calculate_metrics telemetry_data ["amer"] 180 =
      calculate_metrics telemetry_data ["amer"] 180 :=
  ⟨rfl, rfl, rfl,
    C7_deterministic telemetry_data telemetry_data ["amer"] ["amer"] 180 180 rfl rfl rfl⟩

/-- C8: when the regions list mentions a region more than once, the
response still contains exactly one entry for that region (Python dict
key overwrite), and its value equals the one computed for a single
occurrence of that region. -/
theorem C8_duplicate_regions (data : List TelemetryRecord) (t : Int) (rs : List String)
    (r : String) (h : r ∈ rs) :
    (keysOf (calculate_metrics data rs t)).count r = 1 ∧
    dictLookup (calculate_metrics data rs t) r =
      dictLookup (calculate_metrics data [r] t) r := by
  constructor
  · exact List.count_eq_one_of_mem (nodup_keysOf_calculate_metrics data rs t)
      ((mem_keysOf_calculate_metrics data rs t r).mpr h)
  · rw [dictLookup_calculate_metrics, dictLookup_calculate_metrics, if_pos h,
      if_pos (List.mem_cons_self r [])]

/-- Witness for C8: the duplicate request ["amer", "amer"] on the
embedded dataset yields exactly one "amer" key with the single-request
value. -/
theorem C8_witness :
    ("amer" ∈ (["amer", "amer"] : List String)) ∧
    ((keysOf (calculate_metrics telemetry_data ["amer", "amer"] 150)).count "amer" = 1 ∧
      dictLookup (calculate_metrics telemetry_data ["amer", "amer"] 150) "amer" =
        dictLookup (calculate_metrics telemetry_data ["amer"] 150) "amer") :=
  ⟨by decide, C8_duplicate_regions telemetry_data 150 ["amer", "amer"] "amer" (by decide)⟩

/-- C9: for every dataset and threshold, an empty regions list produces
an empty response mapping. -/
theorem C9_empty_regions (data : List TelemetryRecord) (t : Int) :
    calculate_metrics data [] t = [] := rfl

/-- C10: for every request, the breach count of every response entry is
between 0 and the number of dataset records matching that region, and the
keys of the response are exactly the distinct region strings of the
request (an absent key reads as the zero sentinel with 0 breaches). -/
theorem C10_response_invariants (data : List TelemetryRecord) (rs : List String)
    (t : Int) (r : String) :
    0 ≤ ((dictLookup (calculate_metrics data rs t) r).getD zeroMetrics).breaches ∧
    ((dictLookup (calculate_metrics data rs t) r).getD zeroMetrics).breaches ≤
      (data.filter (fun item => item.region == r)).length ∧
    (r ∈ keysOf (calculate_metrics data rs t) ↔ r ∈ rs) := by
  refine ⟨Nat.zero_le _, ?_, mem_keysOf_calculate_metrics data rs t r⟩
  rw [dictLookup_calculate_metrics]
  by_cases h : r ∈ rs
  · rw [if_pos h]
    exact breaches_regionResult_le data r t
  · rw [if_neg h]
    exact Nat.zero_le _
